import Mathlib

/-!
Verification development for the taxParser repository (Go).

The repository contains several iterations of the same pipeline:
  - src/main.go            : file-based, no date column, trims fields, three-field (city/county/state) lookup
  - src/unnamed/part_000   : file-based, no date column, NO trimming, three-field lookup (numeric JSON rates)
  - src/unnamed/part_001   : HTTP, date column, trims fields, three-field lookup (string JSON rates)
  - src/unnamed/part_002   : HTTP, no date column, NO trimming, three-field lookup (numeric JSON rates)
  - src/unnamed/part_003   : HTTP, HTML-scraping lookup that substitutes fixed default rates on parse failure
  - src/unnamed/part_004   : HTTP, date column, map-of-jurisdictions lookup, dual-report (ZIP) writer
  - src/unnamed/part_005   : HTTP, date column, map-of-jurisdictions lookup, dynamic-column writer

This file shallowly embeds the pure row-processing pipeline of those sources.
Machine floats (float64) are modelled by exact rationals (Rat); network calls
are modelled by passing the (already received and JSON-decoded) rate-service
response, or a lookup function, as an argument.
-/

namespace TaxParser

/-- Accumulator loop for reading a run of ASCII digits as a natural number.
Returns none at the first non-digit character. -/
def digitsValAux : List Char → Nat → Option Nat
  | [], acc => some acc
  | c :: rest, acc =>
    if c.isDigit then digitsValAux rest (acc * 10 + (c.toNat - 48)) else none

/-- A nonempty all-digit run of characters, as a natural number. -/
def digitsVal : List Char → Option Nat
  | [] => none
  | cs => digitsValAux cs 0

/-- Model of Go strconv.Atoi: an optional sign followed by one or more ASCII
digits, and nothing else. -/
def atoiModel (s : String) : Option Int :=
  match s.toList with
  | '-' :: rest => (digitsVal rest).map (fun n => -(n : Int))
  | '+' :: rest => (digitsVal rest).map (fun n => (n : Int))
  | cs => (digitsVal cs).map (fun n => (n : Int))

/-- Model of Go strconv.ParseFloat restricted to plain decimal literals
(optional sign, digits, optional fractional part), the only forms the
program's inputs use.  The result is returned exactly, as a signed decimal
mantissa paired with the number of fractional digits, so that string
processing stays fully computable; decValue converts it to a rational. -/
def parseDecimal (s : String) : Option (Int × Nat) :=
  let core : List Char → Option (Int × Nat) := fun cs =>
    let ip := cs.takeWhile (fun c => c ≠ '.')
    let rest := cs.dropWhile (fun c => c ≠ '.')
    match rest with
    | [] =>
      if ip ≠ [] ∧ ip.all Char.isDigit then
        (digitsValAux ip 0).map (fun n => ((n : Int), 0))
      else none
    | _ :: fr =>
      if (ip.all Char.isDigit ∧ fr.all Char.isDigit) ∧ (ip ≠ [] ∨ fr ≠ []) then
        match digitsValAux ip 0, digitsValAux fr 0 with
        | some i, some f => some (((i * 10 ^ fr.length + f : Nat) : Int), fr.length)
        | _, _ => none
      else none
  match s.toList with
  | '-' :: rest => (core rest).map (fun p => (-p.1, p.2))
  | '+' :: rest => core rest
  | cs => core cs

/-- The rational value of a parsed decimal (mantissa, fraction-digit count). -/
def decValue (p : Int × Nat) : Rat := (p.1 : Rat) / (10 : Rat) ^ p.2

/-- Model of Go strconv.ParseFloat as used by the sources: the exact rational
value of the decimal literal, or none on a malformed string. -/
def parseFloatModel (s : String) : Option Rat := (parseDecimal s).map decValue

/-- Model of Go strings.Split(s, "/"): splits at every slash, keeping empty
fragments.  Loop over the character list, accumulating the current fragment
in reverse. -/
def splitCharsAux : List Char → List Char → List (List Char)
  | [], cur => [cur.reverse]
  | c :: rest, cur =>
    if c = '/' then cur.reverse :: splitCharsAux rest []
    else splitCharsAux rest (c :: cur)

/-- strings.Split(s, "/") on strings. -/
def splitOnSlash (s : String) : List String :=
  (splitCharsAux s.toList []).map (fun cs => String.mk cs)

/-- ASCII whitespace recognizer used by the trim model. -/
def isSpaceChar (c : Char) : Bool :=
  c = ' ' || c = '\t' || c = '\n' || c = '\r'

/-- Model of Go strings.TrimSpace: drop leading and trailing whitespace. -/
def trimModel (s : String) : String :=
  String.mk (((s.toList.dropWhile isSpaceChar).reverse.dropWhile isSpaceChar).reverse)

/-- Decimal digit characters of a natural number (fuel-based so that it
computes inside the kernel). -/
def natToDigitsAux : Nat → Nat → List Char → List Char
  | 0, _, acc => acc
  | fuel+1, n, acc =>
    let d := Char.ofNat (48 + n % 10)
    if n < 10 then d :: acc else natToDigitsAux fuel (n / 10) (d :: acc)

/-- Decimal rendering of a natural number. -/
def natToStr (n : Nat) : String := String.mk (natToDigitsAux (n + 1) n [])

/-- Decimal rendering of an integer. -/
def intToStr : Int → String
  | .ofNat n => natToStr n
  | .negSucc n => "-" ++ natToStr (n + 1)

/-- Two-digit zero-padded rendering of a cent count in [0, 100). -/
def twoDigits (n : Int) : String :=
  if n < 10 then "0" ++ intToStr n else intToStr n

/-- Model of fmt.Sprintf("%.2f", x) on the exact rational value: round to
whole cents (half away from zero; Go rounds the binary float64 half to even,
which agrees on every value this development evaluates) and print with
exactly two decimal places. -/
def formatMoney (q : Rat) : String :=
  let a := if q < 0 then -q else q
  let cents : Int := ⌊a * 100 + 1/2⌋
  let sign := if q < 0 && cents != 0 then "-" else ""
  sign ++ intToStr (cents / 100) ++ "." ++ twoDigits (cents % 100)

/-- The helper func equal(a, b []string) bool shared by every variant:
length check, then an element-for-element comparison in order. -/
def equal (a b : List String) : Bool :=
  if a.length ≠ b.length then false
  else (a.zip b).all fun p => p.1 == p.2

/-- Lookup in an association list, mirroring a read m[k] from a Go
map[string]float64 (with the convention that the keys are distinct). -/
def lookupAL (k : String) : List (String × Rat) → Option Rat
  | [] => none
  | p :: rest => if p.1 = k then some p.2 else lookupAL k rest

/-- m[k] = v on an association list: overwrite the existing entry for k, or
append a new one. -/
def alInsert : List (String × Rat) → String → Rat → List (String × Rat)
  | [], k, v => [(k, v)]
  | p :: rest, k, v =>
    if p.1 = k then (p.1, v) :: rest else p :: alInsert rest k v

/-- m[k] += v on an association list (absent keys read as 0, the Go zero
value). -/
def alAdd : List (String × Rat) → String → Rat → List (String × Rat)
  | [], k, v => [(k, v)]
  | p :: rest, k, v =>
    if p.1 = k then (p.1, p.2 + v) :: rest else p :: alAdd rest k v

/-- jurisSet[k] = true: record a key once, keeping first-occurrence order. -/
def insertDedup (a : List String) (k : String) : List String :=
  if k ∈ a then a else a ++ [k]

/-- One entry of the rate service's TAXRATES list: jurisdiction name, type
tag, and the rate as a string (part_001/004/005 and main.go response schema). -/
structure RateEntry where
  jurisName : String
  jurisType : String
  jurisRate : String
deriving Repr, DecidableEq

/-- The rate map built by scrapeTaxRates in part_004/part_005 (lines 260-268
of part_005): parse each entry's rate string, skip entries that fail to
parse, key the rest by jurisdiction name. -/
def extractRatesMap (entries : List RateEntry) : List (String × Rat) :=
  entries.foldl
    (fun acc e =>
      match parseFloatModel e.jurisRate with
      | none => acc
      | some r => alInsert acc e.jurisName r)
    []

/-- scrapeTaxRates of part_004/part_005 after the HTTP and JSON layers:
fails exactly when the usable rate map is empty (lines 272-274 of part_005). -/
def scrapeTaxRatesMapPure (entries : List RateEntry) : Except String (List (String × Rat)) :=
  let taxRates := extractRatesMap entries
  if taxRates.length = 0 then .error "no tax rates found in response"
  else .ok taxRates

/-- The (city, county, state) rate triple accumulated by scrapeTaxRates in
main.go lines 202-217 (and part_001 lines 267-282): parse each entry's rate
string, skip failures, and keep the last value seen for each of the three
recognized type tags (zero when never set). -/
def extractThreeRates (entries : List RateEntry) : Rat × Rat × Rat :=
  entries.foldl
    (fun acc e =>
      match parseFloatModel e.jurisRate with
      | none => acc
      | some r =>
        if e.jurisType = "STATE" then (acc.1, acc.2.1, r)
        else if e.jurisType = "COUNTY" then (acc.1, r, acc.2.2)
        else if e.jurisType = "CITY" then (r, acc.2.1, acc.2.2)
        else acc)
    (0, 0, 0)

/-- scrapeTaxRates of main.go/part_001 after the HTTP and JSON layers: fails
exactly when the accumulated state rate is zero (main.go lines 221-223). -/
def scrapeTaxRatesThreePure (entries : List RateEntry) : Except String (Rat × Rat × Rat) :=
  let rates := extractThreeRates entries
  if rates.2.2 = 0 then .error "no state tax rate found in response"
  else .ok rates

/-- part_003 lines 208-219: convert one scraped rate text with
strconv.ParseFloat(strings.TrimSpace(s), 64), substituting a fixed default
when parsing fails. -/
def parseRateOrDefault (s : String) (d : Rat) : Rat :=
  match parseFloatModel (trimModel s) with
  | some r => r
  | none => d

/-- scrapeTaxRates of part_003 (lines 202-221) after the HTTP/HTML layers:
the three scraped texts are converted with defaults local=0.02, county=0.005,
state=0.0625, and the function never fails. -/
def scrapeTaxRatesHTML (localStr countyStr stateStr : String) : Rat × Rat × Rat :=
  (parseRateOrDefault localStr (2/100), parseRateOrDefault countyStr (5/1000),
   parseRateOrDefault stateStr (625/10000))

/-- Quarter derivation of part_001/004/005: (month-1)/3 + 1 with Go integer
division (truncation toward zero, Int.tdiv). -/
def quarter (month : Int) : Int := Int.tdiv (month - 1) 3 + 1

/-- The TaxRecord of part_004/part_005: the parsed row plus the map of
jurisdiction name to computed tax amount. -/
structure TaxRecord where
  client : String
  date : String
  charge : Rat
  street : String
  city : String
  state : String
  zip : String
  taxes : List (String × Rat)
deriving Repr, DecidableEq

/-- The TaxRecord of main.go/part_000/part_002: no date column, and the three
canonical tax amounts. -/
structure TaxRecord3 where
  client : String
  charge : Rat
  street : String
  city : String
  state : String
  zip : String
  cityTax : Rat
  countyTax : Rat
  stateTax : Rat
deriving Repr, DecidableEq

/-- The errors processCSV can return, one constructor per fmt.Errorf site
(each carries the data the Go message interpolates, in particular the client
name for per-row errors). -/
inductive CSVError where
  | emptyInput : CSVError
  | schema (got expected : List String) : CSVError
  | fieldCount (row : List String) : CSVError
  | dateFormat (client date : String) : CSVError
  | badMonth (client date : String) : CSVError
  | badDay (client date : String) : CSVError
  | badYear (client date : String) : CSVError
  | badCharge (client raw : String) : CSVError
  | lookupFailed (client msg : String) : CSVError
deriving Repr, DecidableEq

/-- The rate lookup as seen by the date-variant row loop: street, city,
state, zip, quarter, year to either an error message or a jurisdiction rate
map (scrapeTaxRates of part_004/part_005, with the network externalized). -/
def LookupFn : Type :=
  String → String → String → String → Int → Int → Except String (List (String × Rat))

/-- The rate lookup as seen by the no-date row loops of main.go, part_000 and
part_002: street, city, state, zip to an error or the (city, county, state)
rate triple. -/
def LookupFn3 : Type :=
  String → String → String → String → Except String (Rat × Rat × Rat)

/-- part_005 lines 205-207: rec.Taxes[juris] = charge * rate for every entry
of the rate map. -/
def computeTaxes (charge : Rat) (rates : List (String × Rat)) : List (String × Rat) :=
  rates.foldl (fun acc p => alInsert acc p.1 (charge * p.2)) []

/-- The date-validation segment of the date-variant row loop (part_005 lines
165-180, identical in part_001 lines 161-176 and part_004 lines 249-264):
split the date on slash, require exactly 3 parts, then parse and range-check
month (1-12), day (1-31, independent of the month) and year (at least 2000),
in that order, each failure naming the client. -/
def validateDate (client dateStr : String) : Except CSVError (Int × Int × Int) :=
  let dateParts := splitOnSlash dateStr
  if dateParts.length ≠ 3 then .error (.dateFormat client dateStr)
  else
    match atoiModel (dateParts.getD 0 "") with
    | none => .error (.badMonth client dateStr)
    | some month =>
      if month < 1 ∨ month > 12 then .error (.badMonth client dateStr)
      else
        match atoiModel (dateParts.getD 1 "") with
        | none => .error (.badDay client dateStr)
        | some day =>
          if day < 1 ∨ day > 31 then .error (.badDay client dateStr)
          else
            match atoiModel (dateParts.getD 2 "") with
            | none => .error (.badYear client dateStr)
            | some year =>
              if year < 2000 then .error (.badYear client dateStr)
              else .ok (month, day, year)

/-- The date-variant row loop body, part_005 lines 161-209 (same code in
part_001 and part_004): trim every field, validate the date, derive the
quarter, parse the charge, call the rate lookup, and multiply the charge
into each returned rate. -/
def processRow (lk : LookupFn) (row0 : List String) : Except CSVError TaxRecord :=
  let row := row0.map trimModel
  let client := row.getD 0 ""
  let dateStr := row.getD 1 ""
  match validateDate client dateStr with
  | .error e => .error e
  | .ok (month, _day, year) =>
    match parseFloatModel (row.getD 2 "") with
    | none => .error (.badCharge client (row.getD 2 ""))
    | some charge =>
      match lk (row.getD 3 "") (row.getD 4 "") (row.getD 5 "") (row.getD 6 "")
          (quarter month) year with
      | .error msg => .error (.lookupFailed client msg)
      | .ok rates =>
        .ok ⟨client, dateStr, charge, row.getD 3 "", row.getD 4 "",
             row.getD 5 "", row.getD 6 "", computeTaxes charge rates⟩

/-- The expected header of the date variant (part_001/004/005 line 147). -/
def expectedHeader : List String :=
  ["client", "date", "charge", "street address", "city", "State", "zip code"]

/-- The expected header of the no-date variant (main.go line 96). -/
def expectedHeaderNoDate : List String :=
  ["client", "charge", "street address", "city", "State", "zip code"]

/-- The data-row loop of processCSV: rows are processed in order and the
first failing row aborts the whole parse with no partial result.  The field
count check mirrors encoding/csv's ErrFieldCount (every record must have as
many fields as the header). -/
def processRows (lk : LookupFn) : List (List String) → Except CSVError (List TaxRecord)
  | [] => .ok []
  | row :: more =>
    if row.length = expectedHeader.length then
      match processRow lk row with
      | .error e => .error e
      | .ok rec => (processRows lk more).map (fun rs => rec :: rs)
    else .error (.fieldCount row)

/-- processCSV of part_005 lines 139-213: read the header, require it to be
exactly the expected schema (via equal), then run the row loop. -/
def processCSV (lk : LookupFn) (rows : List (List String)) : Except CSVError (List TaxRecord) :=
  match rows with
  | [] => .error .emptyInput
  | header :: rest =>
    if equal header expectedHeader then processRows lk rest
    else .error (.schema header expectedHeader)

/-- The row loop body of part_000 lines 94-127 (same in part_002 lines
101-134): NO whitespace trimming: the fields are used exactly as read, the
charge is parsed from the raw field, and the three tax amounts are
charge * rate. -/
def processRowNoTrim (lk : LookupFn3) (row : List String) : Except CSVError TaxRecord3 :=
  match parseFloatModel (row.getD 1 "") with
  | none => .error (.badCharge (row.getD 0 "") (row.getD 1 ""))
  | some charge =>
    match lk (row.getD 2 "") (row.getD 3 "") (row.getD 4 "") (row.getD 5 "") with
    | .error msg => .error (.lookupFailed (row.getD 0 "") msg)
    | .ok rates =>
      .ok ⟨row.getD 0 "", charge, row.getD 2 "", row.getD 3 "", row.getD 4 "",
           row.getD 5 "", charge * rates.1, charge * rates.2.1, charge * rates.2.2⟩

/-- getAllJurisNames of part_004/part_005: the set of jurisdiction names
appearing in any record's tax map.  The Go version collects them through a
map[string]bool whose iteration order is unspecified; the model fixes
first-occurrence order, which is one admissible order. -/
def getAllJurisNames (records : List TaxRecord) : List String :=
  records.foldl
    (fun acc rec => rec.taxes.foldl (fun a p => insertDedup a p.1) acc)
    []

/-- One data row of the dynamic-column report (part_005 lines 105-121): the
seven fixed fields followed by, for every jurisdiction column in order, the
record's tax amount for it (0, the Go map zero value, when absent),
rendered with two decimals. -/
def buildRow (jurisNames : List String) (rec : TaxRecord) : List String :=
  [rec.client, rec.date, formatMoney rec.charge, rec.street, rec.city, rec.state, rec.zip]
    ++ jurisNames.map fun j => formatMoney ((lookupAL j rec.taxes).getD 0)

/-- The header row of the dynamic-column report (part_005 lines 101-103). -/
def buildHeader (records : List TaxRecord) : List String :=
  expectedHeader ++ getAllJurisNames records

/-- The per-jurisdiction totals map of the dual-report writer (part_004
lines 149-154): jurisTotals[juris] += tax over every record and entry. -/
def jurisTotals (records : List TaxRecord) : List (String × Rat) :=
  records.foldl
    (fun acc rec => rec.taxes.foldl (fun a p => alAdd a p.1 p.2) acc)
    []

/-! ### Helper lemmas -/

theorem lookupAL_alInsert (j k : String) (v : Rat) (m : List (String × Rat)) :
    lookupAL j (alInsert m k v) = if k = j then some v else lookupAL j m := by
  induction m with
  | nil =>
    by_cases hkj : k = j <;> simp [alInsert, lookupAL, hkj]
  | cons p rest ih =>
    by_cases hpk : p.1 = k
    · by_cases hkj : k = j
      · simp [alInsert, hpk, lookupAL, hkj]
      · have hpj : ¬ p.1 = j := by rw [hpk]; exact hkj
        simp [alInsert, hpk, lookupAL, hkj, hpj]
    · by_cases hpj : p.1 = j
      · have hkj : ¬ k = j := fun h => hpk (hpj.trans h.symm)
        have hjk : ¬ j = k := fun h => hkj h.symm
        simp [alInsert, hpk, lookupAL, hpj, hkj, hjk]
      · simp [alInsert, hpk, lookupAL, hpj, ih]

theorem lookupAL_alAdd (j k : String) (v : Rat) (m : List (String × Rat)) :
    lookupAL j (alAdd m k v) =
      if k = j then some ((lookupAL k m).getD 0 + v) else lookupAL j m := by
  induction m with
  | nil =>
    by_cases hkj : k = j <;> simp [alAdd, lookupAL, hkj]
  | cons p rest ih =>
    by_cases hpk : p.1 = k
    · by_cases hkj : k = j
      · simp [alAdd, hpk, lookupAL, hkj]
      · have hpj : ¬ p.1 = j := by rw [hpk]; exact hkj
        simp [alAdd, hpk, lookupAL, hkj, hpj]
    · by_cases hpj : p.1 = j
      · have hkj : ¬ k = j := fun h => hpk (hpj.trans h.symm)
        have hjk : ¬ j = k := fun h => hkj h.symm
        simp [alAdd, hpk, lookupAL, hpj, hkj, hjk]
      · simp [alAdd, hpk, lookupAL, hpj, ih]

theorem lookupAL_isSome_iff (j : String) (m : List (String × Rat)) :
    (lookupAL j m).isSome ↔ j ∈ m.map Prod.fst := by
  induction m with
  | nil => simp [lookupAL]
  | cons p rest ih =>
    by_cases hpj : p.1 = j
    · simp [lookupAL, hpj]
    · have hjp : ¬ j = p.1 := fun h => hpj h.symm
      simp [lookupAL, hpj, hjp, ih]

theorem lookupAL_eq_none_of_not_mem (j : String) (m : List (String × Rat))
    (h : j ∉ m.map Prod.fst) : lookupAL j m = none := by
  cases h' : lookupAL j m with
  | none => rfl
  | some v =>
    exact absurd ((lookupAL_isSome_iff j m).mp (by simp [h'])) h

theorem equal_iff (a b : List String) : equal a b = true ↔ a = b := by
  induction a generalizing b with
  | nil => cases b <;> simp [equal]
  | cons x xs ih =>
    cases b with
    | nil => simp [equal]
    | cons y ys =>
      by_cases hl : xs.length = ys.length
      · have hxs := ih ys
        simp only [equal, List.length_cons, hl, ne_eq, not_true_eq_false, if_false,
          ite_false]
        simp only [equal, hl, ne_eq, not_true_eq_false, ite_false] at hxs
        simp [List.zip_cons_cons, List.all_cons, hxs, beq_iff_eq]
      · have hne : (x :: xs) ≠ (y :: ys) := by
          intro h
          exact hl (by simpa using congrArg List.length (List.tail_eq_of_cons_eq h))
        simp only [equal, List.length_cons, ne_eq]
        rw [if_pos (by simpa using hl)]
        simp [hne]

theorem mem_insertDedup (j k : String) (a : List String) :
    j ∈ insertDedup a k ↔ j ∈ a ∨ j = k := by
  by_cases hk : k ∈ a
  · constructor
    · intro h; exact Or.inl (by simpa [insertDedup, hk] using h)
    · rintro (h | rfl)
      · simp [insertDedup, hk, h]
      · simp [insertDedup, hk]
  · simp [insertDedup, hk]

theorem nodup_insertDedup (k : String) (a : List String) (h : a.Nodup) :
    (insertDedup a k).Nodup := by
  by_cases hk : k ∈ a
  · simpa [insertDedup, hk]
  · simp [insertDedup, hk, List.nodup_append, h]

theorem mem_taxes_dedup_fold (j : String) (taxes : List (String × Rat)) (a : List String) :
    j ∈ taxes.foldl (fun a p => insertDedup a p.1) a ↔ j ∈ a ∨ j ∈ taxes.map Prod.fst := by
  induction taxes generalizing a with
  | nil => simp
  | cons p rest ih =>
    simp only [List.foldl_cons, ih, mem_insertDedup, List.map_cons, List.mem_cons]
    tauto

theorem nodup_taxes_dedup_fold (taxes : List (String × Rat)) (a : List String)
    (h : a.Nodup) : (taxes.foldl (fun a p => insertDedup a p.1) a).Nodup := by
  induction taxes generalizing a with
  | nil => exact h
  | cons p rest ih => exact ih _ (nodup_insertDedup _ _ h)

theorem mem_records_dedup_fold (j : String) (records : List TaxRecord) (a : List String) :
    j ∈ records.foldl (fun acc rec => rec.taxes.foldl (fun a p => insertDedup a p.1) acc) a ↔
      j ∈ a ∨ ∃ rec ∈ records, j ∈ rec.taxes.map Prod.fst := by
  induction records generalizing a with
  | nil => simp
  | cons r rest ih =>
    simp only [List.foldl_cons, ih, mem_taxes_dedup_fold, List.mem_cons]
    constructor
    · rintro (( h | h) | ⟨rec, hrec, hmem⟩)
      · exact Or.inl h
      · exact Or.inr ⟨r, Or.inl rfl, h⟩
      · exact Or.inr ⟨rec, Or.inr hrec, hmem⟩
    · rintro (h | ⟨rec, (rfl | hrec), hmem⟩)
      · exact Or.inl (Or.inl h)
      · exact Or.inl (Or.inr hmem)
      · exact Or.inr ⟨rec, hrec, hmem⟩

theorem mem_getAllJurisNames (j : String) (records : List TaxRecord) :
    j ∈ getAllJurisNames records ↔ ∃ rec ∈ records, j ∈ rec.taxes.map Prod.fst := by
  simp [getAllJurisNames, mem_records_dedup_fold]

theorem nodup_getAllJurisNames (records : List TaxRecord) :
    (getAllJurisNames records).Nodup := by
  have : ∀ (rs : List TaxRecord) (a : List String), a.Nodup →
      (rs.foldl (fun acc rec => rec.taxes.foldl (fun a p => insertDedup a p.1) acc) a).Nodup := by
    intro rs
    induction rs with
    | nil => intro a h; exact h
    | cons r rest ih => intro a h; exact ih _ (nodup_taxes_dedup_fold _ _ h)
  exact this records [] List.nodup_nil

theorem formatMoney_of_nonneg (q : Rat) (c : Int) (hq : ¬ q < 0)
    (hc : ⌊q * 100 + 1/2⌋ = c) :
    formatMoney q = intToStr (c / 100) ++ "." ++ twoDigits (c % 100) := by
  simp only [formatMoney, if_neg hq, hc, decide_eq_false hq]
  simp

theorem formatMoney_zero : formatMoney 0 = "0.00" := by
  rw [formatMoney_of_nonneg 0 0 (by norm_num) (by norm_num)]
  decide

theorem lookupAL_taxes_add_fold (j : String) (taxes acc : List (String × Rat))
    (hnd : (taxes.map Prod.fst).Nodup) :
    (lookupAL j (taxes.foldl (fun a p => alAdd a p.1 p.2) acc)).getD 0 =
      (lookupAL j acc).getD 0 + (lookupAL j taxes).getD 0 := by
  induction taxes generalizing acc with
  | nil => simp [lookupAL]
  | cons p rest ih =>
    have hnd' : (rest.map Prod.fst).Nodup := (List.nodup_cons.mp (by simpa using hnd)).2
    have hpnot : p.1 ∉ rest.map Prod.fst := (List.nodup_cons.mp (by simpa using hnd)).1
    simp only [List.foldl_cons]
    rw [ih _ hnd', lookupAL_alAdd]
    by_cases hpj : p.1 = j
    · have hrest : lookupAL j rest = none :=
        lookupAL_eq_none_of_not_mem j rest (hpj ▸ hpnot)
      simp [lookupAL, hpj, hrest]
    · simp [lookupAL, hpj]

theorem lookupAL_jurisTotals_fold (j : String) (records : List TaxRecord)
    (acc : List (String × Rat))
    (hnd : ∀ rec ∈ records, (rec.taxes.map Prod.fst).Nodup) :
    (lookupAL j (records.foldl
        (fun acc rec => rec.taxes.foldl (fun a p => alAdd a p.1 p.2) acc) acc)).getD 0 =
      (lookupAL j acc).getD 0 +
        (records.map (fun rec => (lookupAL j rec.taxes).getD 0)).sum := by
  induction records generalizing acc with
  | nil => simp
  | cons r rest ih =>
    simp only [List.foldl_cons, List.map_cons, List.sum_cons]
    rw [ih _ (fun rec h => hnd rec (List.mem_cons_of_mem _ h)),
      lookupAL_taxes_add_fold j r.taxes acc (hnd r (List.mem_cons_self _ _))]
    ring

theorem computeTaxes_fold_lookup (charge : Rat) (j : String)
    (rates acc : List (String × Rat)) (hnd : (rates.map Prod.fst).Nodup) :
    lookupAL j (rates.foldl (fun acc p => alInsert acc p.1 (charge * p.2)) acc) =
      Option.or ((lookupAL j rates).map (fun r => charge * r)) (lookupAL j acc) := by
  induction rates generalizing acc with
  | nil => simp [lookupAL, Option.or]
  | cons p rest ih =>
    have hnd' : (rest.map Prod.fst).Nodup := (List.nodup_cons.mp (by simpa using hnd)).2
    have hpnot : p.1 ∉ rest.map Prod.fst := (List.nodup_cons.mp (by simpa using hnd)).1
    simp only [List.foldl_cons]
    rw [ih _ hnd']
    by_cases hpj : p.1 = j
    · have hrest : lookupAL j rest = none :=
        lookupAL_eq_none_of_not_mem j rest (hpj ▸ hpnot)
      rw [lookupAL_alInsert]
      simp [lookupAL, hpj, hrest, Option.or]
    · rw [lookupAL_alInsert]
      simp [lookupAL, hpj]

theorem lookupAL_computeTaxes (charge : Rat) (j : String) (rates : List (String × Rat))
    (hnd : (rates.map Prod.fst).Nodup) :
    lookupAL j (computeTaxes charge rates) = (lookupAL j rates).map (fun r => charge * r) := by
  unfold computeTaxes
  rw [computeTaxes_fold_lookup charge j rates [] hnd]
  cases lookupAL j rates <;> simp [lookupAL, Option.or]

theorem extractRatesMap_fold_provenance (entries : List RateEntry)
    (acc : List (String × Rat)) (j : String) (r : Rat)
    (h : lookupAL j (entries.foldl
        (fun acc e =>
          match parseFloatModel e.jurisRate with
          | none => acc
          | some r => alInsert acc e.jurisName r) acc) = some r) :
    (∃ e ∈ entries, e.jurisName = j ∧ parseFloatModel e.jurisRate = some r) ∨
      lookupAL j acc = some r := by
  induction entries generalizing acc with
  | nil => exact Or.inr h
  | cons e rest ih =>
    simp only [List.foldl_cons] at h
    cases hp : parseFloatModel e.jurisRate with
    | none =>
      rw [hp] at h
      rcases ih _ h with ⟨e', he', hn, hr⟩ | hacc
      · exact Or.inl ⟨e', List.mem_cons_of_mem _ he', hn, hr⟩
      · exact Or.inr hacc
    | some r' =>
      rw [hp] at h
      rcases ih _ h with ⟨e', he', hn, hr⟩ | hacc
      · exact Or.inl ⟨e', List.mem_cons_of_mem _ he', hn, hr⟩
      · rw [lookupAL_alInsert] at hacc
        by_cases hej : e.jurisName = j
        · rw [if_pos hej] at hacc
          exact Or.inl ⟨e, List.mem_cons_self _ _, hej, by rw [hp, hacc]⟩
        · rw [if_neg hej] at hacc
          exact Or.inr hacc

theorem lookupAL_extractRatesMap_provenance (entries : List RateEntry) (j : String) (r : Rat)
    (h : lookupAL j (extractRatesMap entries) = some r) :
    ∃ e ∈ entries, e.jurisName = j ∧ parseFloatModel e.jurisRate = some r := by
  rcases extractRatesMap_fold_provenance entries [] j r h with hcase | hacc
  · exact hcase
  · simp [lookupAL] at hacc

theorem extractRatesMap_skips_unparseable (entries : List RateEntry) :
    extractRatesMap entries =
      extractRatesMap (entries.filter (fun e => (parseFloatModel e.jurisRate).isSome)) := by
  have : ∀ (es : List RateEntry) (acc : List (String × Rat)),
      es.foldl (fun acc e =>
          match parseFloatModel e.jurisRate with
          | none => acc
          | some r => alInsert acc e.jurisName r) acc =
        (es.filter (fun e => (parseFloatModel e.jurisRate).isSome)).foldl
          (fun acc e =>
            match parseFloatModel e.jurisRate with
            | none => acc
            | some r => alInsert acc e.jurisName r) acc := by
    intro es
    induction es with
    | nil => intro acc; rfl
    | cons e rest ih =>
      intro acc
      cases hp : parseFloatModel e.jurisRate with
      | none => simp [List.filter_cons, hp, ih]
      | some r => simp [List.filter_cons, hp, ih]
  exact this entries []

theorem extractThree_city_unchanged (entries : List RateEntry) (acc : Rat × Rat × Rat)
    (h : ∀ e ∈ entries, e.jurisType = "CITY" → parseFloatModel e.jurisRate = none) :
    (entries.foldl
        (fun acc e =>
          match parseFloatModel e.jurisRate with
          | none => acc
          | some r =>
            if e.jurisType = "STATE" then (acc.1, acc.2.1, r)
            else if e.jurisType = "COUNTY" then (acc.1, r, acc.2.2)
            else if e.jurisType = "CITY" then (r, acc.2.1, acc.2.2)
            else acc) acc).1 = acc.1 := by
  induction entries generalizing acc with
  | nil => rfl
  | cons e rest ih =>
    simp only [List.foldl_cons]
    rw [ih _ (fun e' he' => h e' (List.mem_cons_of_mem _ he'))]
    cases hp : parseFloatModel e.jurisRate with
    | none => simp [hp]
    | some r =>
      by_cases hS : e.jurisType = "STATE"
      · simp [hp, hS]
      · by_cases hC : e.jurisType = "COUNTY"
        · simp [hp, hS, hC]
        · by_cases hCi : e.jurisType = "CITY"
          · exact absurd (h e (List.mem_cons_self _ _) hCi) (by simp [hp])
          · simp [hp, hS, hC, hCi]

theorem extractThree_county_unchanged (entries : List RateEntry) (acc : Rat × Rat × Rat)
    (h : ∀ e ∈ entries, e.jurisType = "COUNTY" → parseFloatModel e.jurisRate = none) :
    (entries.foldl
        (fun acc e =>
          match parseFloatModel e.jurisRate with
          | none => acc
          | some r =>
            if e.jurisType = "STATE" then (acc.1, acc.2.1, r)
            else if e.jurisType = "COUNTY" then (acc.1, r, acc.2.2)
            else if e.jurisType = "CITY" then (r, acc.2.1, acc.2.2)
            else acc) acc).2.1 = acc.2.1 := by
  induction entries generalizing acc with
  | nil => rfl
  | cons e rest ih =>
    simp only [List.foldl_cons]
    rw [ih _ (fun e' he' => h e' (List.mem_cons_of_mem _ he'))]
    cases hp : parseFloatModel e.jurisRate with
    | none => simp [hp]
    | some r =>
      by_cases hS : e.jurisType = "STATE"
      · simp [hp, hS]
      · by_cases hC : e.jurisType = "COUNTY"
        · exact absurd (h e (List.mem_cons_self _ _) hC) (by simp [hp])
        · by_cases hCi : e.jurisType = "CITY"
          · simp [hp, hS, hC, hCi]
          · simp [hp, hS, hC, hCi]

theorem extractThreeRates_city_zero (entries : List RateEntry)
    (h : ∀ e ∈ entries, e.jurisType = "CITY" → parseFloatModel e.jurisRate = none) :
    (extractThreeRates entries).1 = 0 :=
  extractThree_city_unchanged entries (0, 0, 0) h

theorem extractThreeRates_county_zero (entries : List RateEntry)
    (h : ∀ e ∈ entries, e.jurisType = "COUNTY" → parseFloatModel e.jurisRate = none) :
    (extractThreeRates entries).2.1 = 0 :=
  extractThree_county_unchanged entries (0, 0, 0) h

theorem getD_append_off {α : Type} (l1 l2 : List α) (d : α) (i : Nat) :
    (l1 ++ l2).getD (l1.length + i) d = l2.getD i d := by
  induction l1 with
  | nil => simp
  | cons x xs ih =>
    have hidx : (x :: xs).length + i = (xs.length + i) + 1 := by
      simp [List.length_cons]
      omega
    rw [List.cons_append, hidx, List.getD_cons_succ, ih]

theorem getD_map_of_lt {α β : Type} (f : α → β) (l : List α) (i : Nat)
    (hi : i < l.length) (d : α) (d' : β) :
    (l.map f).getD i d' = f (l.getD i d) := by
  induction l generalizing i with
  | nil => simp at hi
  | cons x xs ih =>
    cases i with
    | zero => simp
    | succ n =>
      simp only [List.map_cons, List.getD_cons_succ]
      exact ih n (by simpa using hi)

/-- Inversion of a successful processRow: the produced record's fields are
exactly the trimmed row fields, and its charge is the value parsed from the
trimmed charge field. -/
theorem processRow_ok_fields (lk : LookupFn) (row : List String) (rec : TaxRecord)
    (h : processRow lk row = .ok rec) :
    rec.client = (row.map trimModel).getD 0 "" ∧
    rec.date = (row.map trimModel).getD 1 "" ∧
    parseFloatModel ((row.map trimModel).getD 2 "") = some rec.charge ∧
    rec.street = (row.map trimModel).getD 3 "" ∧
    rec.city = (row.map trimModel).getD 4 "" ∧
    rec.state = (row.map trimModel).getD 5 "" ∧
    rec.zip = (row.map trimModel).getD 6 "" := by
  unfold processRow at h
  cases hv : validateDate ((row.map trimModel).getD 0 "") ((row.map trimModel).getD 1 "") with
  | error e => simp only [hv] at h; exact absurd h (by simp)
  | ok triple =>
    obtain ⟨month, day, year⟩ := triple
    simp only [hv] at h
    cases hp : parseFloatModel ((row.map trimModel).getD 2 "") with
    | none => simp only [hp] at h; exact absurd h (by simp)
    | some charge =>
      simp only [hp] at h
      cases hl : lk ((row.map trimModel).getD 3 "") ((row.map trimModel).getD 4 "")
          ((row.map trimModel).getD 5 "") ((row.map trimModel).getD 6 "")
          (quarter month) year with
      | error msg => simp only [hl] at h; exact absurd h (by simp)
      | ok rates =>
        simp only [hl, Except.ok.injEq] at h
        subst h
        exact ⟨rfl, rfl, rfl, rfl, rfl, rfl, rfl⟩

/-- Indexing a trimmed row equals trimming the indexed field (the default ""
is a fixed point of trimming). -/
theorem getD_map_trim (row : List String) (i : Nat) :
    (row.map trimModel).getD i "" = trimModel (row.getD i "") := by
  induction row generalizing i with
  | nil =>
    have ht : trimModel "" = "" := rfl
    cases i <;> simp [List.getD, ht]
  | cons x xs ih =>
    cases i with
    | zero => simp
    | succ n => simpa using ih n

/-! ### Concrete values used by the witnesses -/

/-- A record whose tax map contains jurisdiction "A" only. -/
def demoRec1 : TaxRecord :=
  ⟨"Ann", "02/22/2025", 100, "1 Main St", "Austin", "TX", "78701", [("A", 2)]⟩

/-- A record whose tax map contains jurisdiction "B" only. -/
def demoRec2 : TaxRecord :=
  ⟨"Bob", "03/23/2025", 200, "2 Main St", "Dallas", "TX", "75201", [("B", 3)]⟩

/-- A date-variant lookup stub answering every request with STATE=3. -/
def demoLookup : LookupFn := fun _ _ _ _ _ _ => .ok [("STATE", 3)]

/-- A three-field lookup stub answering every request with (2, 3, 5). -/
def demoLookup3 : LookupFn3 := fun _ _ _ _ => .ok (2, 3, 5)

/-- A response with one unparseable COUNTY entry and one parseable STATE
entry. -/
def demoEntries : List RateEntry :=
  [⟨"TRAVIS", "COUNTY", "x"⟩, ⟨"TX", "STATE", "3"⟩]

/-- A response carrying only a STATE entry. -/
def demoStateOnly : List RateEntry := [⟨"TX", "STATE", "3"⟩]

/-- An input row with whitespace around the client and street fields. -/
def demoRow8 : List String :=
  [" John ", "02/22/2025", "100", " 1 Main St ", "Austin", "TX", "78701"]

/-- The record processRow produces from demoRow8 under demoLookup. -/
def demoTrimmedRec : TaxRecord :=
  ⟨"John", "02/22/2025", decValue (100, 0), "1 Main St", "Austin", "TX", "78701",
   [("STATE", decValue (100, 0) * 3)]⟩

/-- An input row whose charge field is the negative number -5. -/
def demoNegRow : List String :=
  ["Bob", "02/22/2025", "-5", "1 Main St", "Austin", "TX", "78701"]

/-- The record processRow produces from demoNegRow under demoLookup: its
charge is negative. -/
def demoNegRec : TaxRecord :=
  ⟨"Bob", "02/22/2025", decValue (-5, 0), "1 Main St", "Austin", "TX", "78701",
   [("STATE", decValue (-5, 0) * 3)]⟩

/-! ### Claim theorems -/

/-- C1: the tax calculation of part_005 lines 205-207 (and main.go lines
134-136) maps a charge and a finite rate mapping to the mapping that assigns
to every jurisdiction present in the rates exactly charge * rate, has no
entry for any jurisdiction absent from the rates (its lookup stays none),
and is a pure total Lean function on all well-formed inputs. -/
theorem C1_tax_calculator_spec (charge : Rat) (rates : List (String × Rat)) (j : String)
    (_hcharge : 0 ≤ charge) (hkeys : (rates.map Prod.fst).Nodup) :
    lookupAL j (computeTaxes charge rates) = (lookupAL j rates).map (fun r => charge * r) :=
  lookupAL_computeTaxes charge j rates hkeys

/-- C1 witness: at charge 2 and the one-jurisdiction rate map STATE=3 the
computed amount for STATE is 6, and an absent jurisdiction has no entry. -/
theorem C1_tax_calculator_spec_witness :
    lookupAL "STATE" (computeTaxes 2 [("STATE", 3)]) = some 6 ∧
    lookupAL "CITY" (computeTaxes 2 [("STATE", 3)]) = none := by
  have h1 := C1_tax_calculator_spec 2 [("STATE", 3)] "STATE" (by norm_num) (by simp)
  have h2 := C1_tax_calculator_spec 2 [("STATE", 3)] "CITY" (by norm_num) (by simp)
  refine ⟨?_, ?_⟩
  · rw [h1]
    have : lookupAL "STATE" [("STATE", (3 : Rat))] = some 3 := by decide
    rw [this]
    simp
    norm_num
  · rw [h2]
    have : lookupAL "CITY" [("STATE", (3 : Rat))] = none := by decide
    rw [this]
    rfl

/-- C5: header validation is exact and order-sensitive: the helper equal
accepts precisely element-for-element identical string lists, and processCSV
proceeds past the header into the row loop exactly when the header equals
the expected schema, failing otherwise with the SchemaError carrying the
received and the expected columns. -/
theorem C5_header_validation_exact (lk : LookupFn) (header : List String)
    (rest : List (List String)) :
    (equal header expectedHeader = true ↔ header = expectedHeader) ∧
    processCSV lk (header :: rest) =
      (if header = expectedHeader then processRows lk rest
       else .error (.schema header expectedHeader)) := by
  refine ⟨equal_iff header expectedHeader, ?_⟩
  by_cases h : header = expectedHeader
  · subst h
    have he : equal expectedHeader expectedHeader = true := (equal_iff _ _).mpr rfl
    simp [processCSV, he]
  · have he : equal header expectedHeader = false := by
      cases hb : equal header expectedHeader
      · rfl
      · exact absurd ((equal_iff _ _).mp hb) h
    simp [processCSV, he, h]

/-- C6: for every month in [1,12] the derived quarter is (month-1)/3 + 1
under Go integer division, mapping 1-3 to 1, 4-6 to 2, 7-9 to 3 and 10-12
to 4, and always lies in [1,4]. -/
theorem C6_quarter_derivation (m : Int) (h1 : 1 ≤ m) (h2 : m ≤ 12) :
    quarter m = Int.tdiv (m - 1) 3 + 1 ∧
    (1 ≤ quarter m ∧ quarter m ≤ 4) ∧
    ((1 ≤ m ∧ m ≤ 3) → quarter m = 1) ∧
    ((4 ≤ m ∧ m ≤ 6) → quarter m = 2) ∧
    ((7 ≤ m ∧ m ≤ 9) → quarter m = 3) ∧
    ((10 ≤ m ∧ m ≤ 12) → quarter m = 4) := by
  interval_cases m <;> decide

/-- C6 witness: month 7 derives quarter 3. -/
theorem C6_quarter_derivation_witness : quarter 7 = 3 :=
  (C6_quarter_derivation 7 (by decide) (by decide)).2.2.2.2.1 ⟨by decide, by decide⟩

/-- C7: the per-jurisdiction totals table of the dual-report writer
(part_004 lines 149-154) assigns to every jurisdiction the sum over all
records of that record's tax amount for it, records lacking the
jurisdiction contributing 0. -/
theorem C7_jurisdiction_totals (records : List TaxRecord) (j : String)
    (hnd : ∀ rec ∈ records, (rec.taxes.map Prod.fst).Nodup) :
    (lookupAL j (jurisTotals records)).getD 0 =
      (records.map (fun rec => (lookupAL j rec.taxes).getD 0)).sum := by
  unfold jurisTotals
  rw [lookupAL_jurisTotals_fold j records [] hnd]
  simp [lookupAL]

/-- C7 witness: over two records where only the first carries jurisdiction
"A" (amount 2), the total for "A" is 2 = 2 + 0. -/
theorem C7_jurisdiction_totals_witness :
    (lookupAL "A" (jurisTotals [demoRec1, demoRec2])).getD 0 = 2 := by
  have h := C7_jurisdiction_totals [demoRec1, demoRec2] "A" (by decide)
  rw [h]
  have l1 : lookupAL "A" demoRec1.taxes = some 2 := by decide
  have l2 : lookupAL "A" demoRec2.taxes = none := by decide
  simp [l1, l2]

/-- C4: in the date-variant parser a row's date passes validation exactly
when the slash-split yields 3 parts whose month parses into [1,12], day
parses into [1,31] (independent of the month: Feb 30 is accepted) and year
parses to at least 2000; the failures are date errors naming the client, and
a month of 13 aborts the whole batch with the month-range error naming that
client. -/
theorem C4_date_validation (client date : String) (lk : LookupFn) :
    ((∃ v, validateDate client date = .ok v) ↔
      ((splitOnSlash date).length = 3 ∧
       (∃ m, atoiModel ((splitOnSlash date).getD 0 "") = some m ∧ 1 ≤ m ∧ m ≤ 12) ∧
       (∃ d, atoiModel ((splitOnSlash date).getD 1 "") = some d ∧ 1 ≤ d ∧ d ≤ 31) ∧
       (∃ y, atoiModel ((splitOnSlash date).getD 2 "") = some y ∧ 2000 ≤ y))) ∧
    validateDate "Bob" "02/30/2025" = .ok (2, 30, 2025) ∧
    validateDate "Ann" "13/01/2025" = .error (.badMonth "Ann" "13/01/2025") ∧
    processCSV lk [expectedHeader,
        ["Ann", "13/01/2025", "100.00", "1 Main St", "Austin", "TX", "78701"]] =
      .error (.badMonth "Ann" "13/01/2025") := by
  refine ⟨⟨?_, ?_⟩, by rfl, by rfl, by rfl⟩
  · rintro ⟨v, hv⟩
    simp only [validateDate] at hv
    split at hv
    · exact absurd hv (by simp)
    next hlen =>
      refine ⟨by omega, ?_⟩
      cases hm : atoiModel ((splitOnSlash date).getD 0 "") with
      | none => simp only [hm] at hv; exact absurd hv (by simp)
      | some month =>
        simp only [hm] at hv
        split at hv
        · exact absurd hv (by simp)
        next hmr =>
          refine ⟨⟨month, rfl, by omega⟩, ?_⟩
          cases hd : atoiModel ((splitOnSlash date).getD 1 "") with
          | none => simp only [hd] at hv; exact absurd hv (by simp)
          | some day =>
            simp only [hd] at hv
            split at hv
            · exact absurd hv (by simp)
            next hdr =>
              refine ⟨⟨day, rfl, by omega⟩, ?_⟩
              cases hy : atoiModel ((splitOnSlash date).getD 2 "") with
              | none => simp only [hy] at hv; exact absurd hv (by simp)
              | some year =>
                simp only [hy] at hv
                split at hv
                · exact absurd hv (by simp)
                next hyr => exact ⟨year, rfl, by omega⟩
  · rintro ⟨hlen, ⟨m, hm, hm1, hm2⟩, ⟨d, hd, hd1, hd2⟩, ⟨y, hy, hy1⟩⟩
    refine ⟨(m, d, y), ?_⟩
    simp only [validateDate]
    rw [if_neg (by omega)]
    simp only [hm]
    rw [if_neg (by omega)]
    simp only [hd]
    rw [if_neg (by omega)]
    simp only [hy]
    rw [if_neg (by omega)]

/-- C2: in the dynamic-column report of part_005 the trailing tax columns
are exactly the union of jurisdiction names across all records of the batch
(membership equivalence, no duplicates), every data row carries one tax cell
per header column in the same order (cell at offset i renders the record's
amount for the i-th jurisdiction column), and a record lacking a
jurisdiction present in another record renders 0.00 in that column. -/
theorem C2_dynamic_columns (records : List TaxRecord) (rec : TaxRecord) (j : String)
    (i : Nat)
    (_hrec : rec ∈ records)
    (hi : i < (getAllJurisNames records).length)
    (hij : (getAllJurisNames records).getD i "" = j)
    (hmiss : lookupAL j rec.taxes = none) :
    (j ∈ getAllJurisNames records ↔ ∃ r ∈ records, (lookupAL j r.taxes).isSome) ∧
    (getAllJurisNames records).Nodup ∧
    buildHeader records = expectedHeader ++ getAllJurisNames records ∧
    (buildRow (getAllJurisNames records) rec).length =
      expectedHeader.length + (getAllJurisNames records).length ∧
    (buildHeader records).getD (expectedHeader.length + i) "" =
      (getAllJurisNames records).getD i "" ∧
    (buildRow (getAllJurisNames records) rec).getD (expectedHeader.length + i) "" =
      formatMoney ((lookupAL ((getAllJurisNames records).getD i "") rec.taxes).getD 0) ∧
    (buildRow (getAllJurisNames records) rec).getD (expectedHeader.length + i) "" =
      "0.00" := by
  have hcell : (buildRow (getAllJurisNames records) rec).getD (expectedHeader.length + i) "" =
      ((getAllJurisNames records).map
        fun j' => formatMoney ((lookupAL j' rec.taxes).getD 0)).getD i "" := by
    unfold buildRow
    have e1 : expectedHeader.length =
        ([rec.client, rec.date, formatMoney rec.charge, rec.street, rec.city, rec.state,
          rec.zip]).length := by
      simp [expectedHeader]
    rw [e1, getD_append_off]
  have hval : (buildRow (getAllJurisNames records) rec).getD (expectedHeader.length + i) "" =
      formatMoney ((lookupAL ((getAllJurisNames records).getD i "") rec.taxes).getD 0) := by
    rw [hcell, getD_map_of_lt _ _ i hi ""]
  refine ⟨?_, nodup_getAllJurisNames records, rfl, ?_, ?_, hval, ?_⟩
  · rw [mem_getAllJurisNames]
    exact exists_congr fun r => and_congr_right fun _ => (lookupAL_isSome_iff j r.taxes).symm
  · simp [buildRow, expectedHeader]
    omega
  · unfold buildHeader
    exact getD_append_off expectedHeader (getAllJurisNames records) "" i
  · rw [hval, hij, hmiss]
    simp only [Option.getD_none]
    exact formatMoney_zero

/-- C2 witness: with two records where only the first carries jurisdiction
"A", the second record's cell in the first jurisdiction column renders 0.00. -/
theorem C2_dynamic_columns_witness :
    (buildRow (getAllJurisNames [demoRec1, demoRec2]) demoRec2).getD 7 "" = "0.00" := by
  have h := C2_dynamic_columns [demoRec1, demoRec2] demoRec2 "A" 0
    (by decide) (by decide) (by decide) (by decide)
  simpa [expectedHeader] using h.2.2.2.2.2.2

/-- C3 counterexample: the claim says the rate lookup never substitutes a
default rate for an unparseable entry and fails with NoRatesFoundError
exactly when the usable rate set is empty, but the part_003 variant it cites
(lines 202-221) substitutes the fixed defaults 0.02 / 0.005 / 0.0625 and
succeeds even when not a single rate text parses. -/
theorem C3_default_rate_counterexample :
    parseFloatModel (trimModel "N/A") = none ∧
    scrapeTaxRatesHTML "N/A" "N/A" "N/A" = (2/100, 5/1000, 625/10000) := by
  have h : parseFloatModel (trimModel "N/A") = none := by decide
  refine ⟨h, ?_⟩
  unfold scrapeTaxRatesHTML parseRateOrDefault
  rw [h]

/-- C3 amended: in the JSON-based lookup variants the claim holds, for every
response: every rate in the usable map comes from an entry whose rate string
parsed to it (never a default), entries that fail to parse are skipped while
the rest of the same response is processed, the map variant fails exactly
when the usable map is empty, and the three-field variant fails exactly when
the accumulated state rate is zero — both biconditionals unconditional, so
they cover the empty and all-unparseable responses.  (The part_003 HTML
variant instead substitutes fixed defaults; see the counterexample.) -/
theorem C3_rate_parse_handling (entries : List RateEntry) (j : String) (r : Rat) :
    (lookupAL j (extractRatesMap entries) = some r →
      ∃ e ∈ entries, e.jurisName = j ∧ parseFloatModel e.jurisRate = some r) ∧
    extractRatesMap entries =
      extractRatesMap (entries.filter (fun e => (parseFloatModel e.jurisRate).isSome)) ∧
    (scrapeTaxRatesMapPure entries = .error "no tax rates found in response" ↔
      extractRatesMap entries = []) ∧
    (scrapeTaxRatesThreePure entries = .error "no state tax rate found in response" ↔
      (extractThreeRates entries).2.2 = 0) := by
  refine ⟨lookupAL_extractRatesMap_provenance entries j r,
    extractRatesMap_skips_unparseable entries, ?_, ?_⟩
  · simp only [scrapeTaxRatesMapPure]
    by_cases he : (extractRatesMap entries).length = 0
    · rw [if_pos he]
      simp [List.length_eq_zero.mp he]
    · rw [if_neg he]
      constructor
      · intro hcontra; exact absurd hcontra (by simp)
      · intro hnil; exact absurd (by simp [hnil]) he
  · simp only [scrapeTaxRatesThreePure]
    by_cases hs : (extractThreeRates entries).2.2 = 0
    · rw [if_pos hs]
      simp [hs]
    · rw [if_neg hs]
      constructor
      · intro hcontra; exact absurd hcontra (by simp)
      · intro h0; exact absurd h0 hs

/-- C3 witness: in the response with an unparseable COUNTY rate and STATE
rate 3, the usable map's entry for TX is traced back to the STATE entry that
parsed to 3; and on the response whose only entry is unparseable, both
lookup variants fail (usable set empty, state rate zero). -/
theorem C3_rate_parse_handling_witness :
    (∃ e ∈ demoEntries, e.jurisName = "TX" ∧ parseFloatModel e.jurisRate = some 3) ∧
    scrapeTaxRatesMapPure [⟨"TRAVIS", "COUNTY", "x"⟩] =
      .error "no tax rates found in response" ∧
    scrapeTaxRatesThreePure [⟨"TRAVIS", "COUNTY", "x"⟩] =
      .error "no state tax rate found in response" := by
  have h1 : parseDecimal "3" = some (3, 0) := by decide
  have hp : parseFloatModel "3" = some 3 := by
    rw [parseFloatModel, h1]
    simp only [Option.map_some']
    norm_num [decValue]
  have hx : parseFloatModel "x" = none := by decide
  have hmap : extractRatesMap demoEntries = [("TX", (3 : Rat))] := by
    simp [extractRatesMap, demoEntries, hx, hp, alInsert]
  refine ⟨(C3_rate_parse_handling demoEntries "TX" 3).1 (by rw [hmap]; decide), ?_, ?_⟩
  · exact (C3_rate_parse_handling [⟨"TRAVIS", "COUNTY", "x"⟩] "TX" 3).2.2.1.mpr (by decide)
  · exact (C3_rate_parse_handling [⟨"TRAVIS", "COUNTY", "x"⟩] "TX" 3).2.2.2.mpr (by decide)

/-- C8 counterexample: the part_000/part_002 row loops cited by the claim do
not trim: a row whose client field carries surrounding whitespace is
accepted and the produced record keeps the untrimmed field. -/
theorem C8_no_trim_counterexample :
    processRowNoTrim demoLookup3 [" John ", "100", "123 Main St", "Austin", "TX", "78701"] =
      .ok ⟨" John ", decValue (100, 0), "123 Main St", "Austin", "TX", "78701",
           decValue (100, 0) * 2, decValue (100, 0) * 3, decValue (100, 0) * 5⟩ ∧
    trimModel " John " ≠ " John " :=
  ⟨rfl, by decide⟩

/-- C8 amended: in the trimming variants (main.go, part_001, part_004,
part_005) the claim holds: every accepted row's record fields are exactly
the trimmed raw fields, and the charge is parsed from the trimmed charge
field.  The part_000/part_002 variants use the fields untrimmed; see the
counterexample. -/
theorem C8_trimming (lk : LookupFn) (row : List String) (rec : TaxRecord)
    (h : processRow lk row = .ok rec) :
    rec.client = trimModel (row.getD 0 "") ∧
    rec.date = trimModel (row.getD 1 "") ∧
    parseFloatModel (trimModel (row.getD 2 "")) = some rec.charge ∧
    rec.street = trimModel (row.getD 3 "") ∧
    rec.city = trimModel (row.getD 4 "") ∧
    rec.state = trimModel (row.getD 5 "") ∧
    rec.zip = trimModel (row.getD 6 "") := by
  have hf := processRow_ok_fields lk row rec h
  simp only [getD_map_trim] at hf
  exact hf

/-- C8 witness: the row with whitespace around client and street processes
to the record with those fields trimmed. -/
theorem C8_trimming_witness :
    demoTrimmedRec.client = trimModel (demoRow8.getD 0 "") ∧
    demoTrimmedRec.date = trimModel (demoRow8.getD 1 "") ∧
    parseFloatModel (trimModel (demoRow8.getD 2 "")) = some demoTrimmedRec.charge ∧
    demoTrimmedRec.street = trimModel (demoRow8.getD 3 "") ∧
    demoTrimmedRec.city = trimModel (demoRow8.getD 4 "") ∧
    demoTrimmedRec.state = trimModel (demoRow8.getD 5 "") ∧
    demoTrimmedRec.zip = trimModel (demoRow8.getD 6 "") :=
  C8_trimming demoLookup demoRow8 demoTrimmedRec rfl

/-- C9 counterexample: the parser only checks that the charge parses as a
number, not that it is non-negative: the charge -5 is accepted and the
record reaches the lookup and the tax calculation with a negative charge. -/
theorem C9_negative_charge_counterexample :
    parseFloatModel "-5" = some (-5) ∧
    processRow demoLookup demoNegRow = .ok demoNegRec ∧
    demoNegRec.charge < 0 := by
  refine ⟨?_, rfl, ?_⟩
  · have h1 : parseDecimal "-5" = some (-5, 0) := by decide
    rw [parseFloatModel, h1]
    simp only [Option.map_some']
    norm_num [decValue]
  · show decValue (-5, 0) < 0
    norm_num [decValue]

/-- C9 amended: every record accepted by the row parser carries exactly the
decimal value parsed from its trimmed charge field; unparseable charges are
rejected, but the sign is not checked, so negative charges flow through to
the rate lookup and tax calculation (see the counterexample). -/
theorem C9_charge_validation (lk : LookupFn) (row : List String) (rec : TaxRecord)
    (h : processRow lk row = .ok rec) :
    parseFloatModel (trimModel (row.getD 2 "")) = some rec.charge := by
  have hf := (processRow_ok_fields lk row rec h).2.2.1
  rwa [getD_map_trim] at hf

/-- C9 witness: the accepted negative-charge row's record carries the parsed
charge value. -/
theorem C9_charge_validation_witness :
    parseFloatModel (trimModel (demoNegRow.getD 2 "")) = some demoNegRec.charge :=
  C9_charge_validation demoLookup demoNegRow demoNegRec rfl

/-- C10: in the three-field lookup, a response with a nonzero parseable
STATE rate but no parseable CITY or COUNTY entry succeeds and returns 0 for
the missing rates, so the corresponding taxes are charge * 0 = 0 and render
as 0.00, with no error.  (The source only logs a warning when fewer than 3
rates are present; logging is outside the embedded pipeline.) -/
theorem C10_state_only_lookup (entries : List RateEntry) (charge : Rat)
    (hcity : ∀ e ∈ entries, e.jurisType = "CITY" → parseFloatModel e.jurisRate = none)
    (hcounty : ∀ e ∈ entries, e.jurisType = "COUNTY" → parseFloatModel e.jurisRate = none)
    (hstate : (extractThreeRates entries).2.2 ≠ 0) :
    scrapeTaxRatesThreePure entries = .ok (0, 0, (extractThreeRates entries).2.2) ∧
    charge * (extractThreeRates entries).1 = 0 ∧
    charge * (extractThreeRates entries).2.1 = 0 ∧
    formatMoney (charge * (extractThreeRates entries).1) = "0.00" ∧
    formatMoney (charge * (extractThreeRates entries).2.1) = "0.00" := by
  have h1 := extractThreeRates_city_zero entries hcity
  have h2 := extractThreeRates_county_zero entries hcounty
  refine ⟨?_, by rw [h1, mul_zero], by rw [h2, mul_zero], ?_, ?_⟩
  · simp only [scrapeTaxRatesThreePure]
    rw [if_neg hstate]
    exact congrArg Except.ok (Prod.ext h1 (Prod.ext h2 rfl))
  · rw [h1, mul_zero]
    exact formatMoney_zero
  · rw [h2, mul_zero]
    exact formatMoney_zero

/-- C10 witness: a response carrying only STATE=3 succeeds with city and
county rates 0, and the taxes of a 100 charge render as 0.00 there. -/
theorem C10_state_only_lookup_witness :
    scrapeTaxRatesThreePure demoStateOnly =
      .ok (0, 0, (extractThreeRates demoStateOnly).2.2) ∧
    (100 : Rat) * (extractThreeRates demoStateOnly).1 = 0 ∧
    (100 : Rat) * (extractThreeRates demoStateOnly).2.1 = 0 ∧
    formatMoney ((100 : Rat) * (extractThreeRates demoStateOnly).1) = "0.00" ∧
    formatMoney ((100 : Rat) * (extractThreeRates demoStateOnly).2.1) = "0.00" := by
  have h1 : parseDecimal "3" = some (3, 0) := by decide
  have hp : parseFloatModel "3" = some 3 := by
    rw [parseFloatModel, h1]
    simp only [Option.map_some']
    norm_num [decValue]
  have hext : extractThreeRates demoStateOnly = (0, 0, 3) := by
    simp [extractThreeRates, demoStateOnly, hp]
  exact C10_state_only_lookup demoStateOnly 100 (by decide) (by decide)
    (by rw [hext]; norm_num)

end TaxParser
